import Mathlib

/-!
Verification development for the pubmed-pharma-papers pipeline.

The Python sources (`filter.py`, `parser.py`, `exporter.py`, `api_client.py`)
are embedded shallowly: Python strings are Lean `String`s manipulated through
their character lists (Python string semantics are character-sequence
semantics), Python `Optional` is `Option`, dataclasses are structures with
derived decidable equality (Python dataclasses compare by field values), and
the fallible API entry point returns `Except`.
-/

/-! ## Python string primitives -/

/-- Python `c.lower()` for a single character: only ASCII letters change. -/
def pyLowerChar (c : Char) : Char := c.toLower

/-- Python `s.lower()` (all source strings are ASCII). -/
def pyLower (s : String) : String := ⟨s.data.map pyLowerChar⟩

/-- Membership of `pat` as a contiguous sublist of `s`, i.e. Python `pat in s`
on the underlying character lists. -/
def listContainsSub : List Char → List Char → Bool
  | [], pat => pat.isEmpty
  | c :: t, pat => pat.isPrefixOf (c :: t) || listContainsSub t pat

/-- Python `pat in s` for strings (substring containment). -/
def strContainsSub (s pat : String) : Bool := listContainsSub s.data pat.data

/-- Python `s.endswith(pat)`. -/
def strEndsWith (s pat : String) : Bool := pat.data.isSuffixOf s.data

/-- Python `s.strip()` on a character list: drop whitespace at both ends. -/
def pyStripList (s : List Char) : List Char :=
  ((s.dropWhile Char.isWhitespace).reverse.dropWhile Char.isWhitespace).reverse

/-- Python `s.strip()`. -/
def pyStrip (s : String) : String := ⟨pyStripList s.data⟩

/-- Python `s.split(c)` on a character list: always returns a non-empty list
of segments. -/
def pySplitList (c : Char) : List Char → List (List Char)
  | [] => [[]]
  | x :: t =>
    match pySplitList c t with
    | [] => [[x]]
    | s :: rest => if x = c then [] :: s :: rest else (x :: s) :: rest

/-- Python `s.split(c)[0]`. -/
def pySplitHead (c : Char) (s : String) : String :=
  ⟨(pySplitList c s.data).headD []⟩

/-- Python `s.split(c)[1]` (the segment between the first and the second
occurrence of `c`; only used when `c` occurs in `s`). -/
def pySplitSecond (c : Char) (s : String) : String :=
  ⟨((pySplitList c s.data).drop 1).headD []⟩

/-- Python `s.zfill(w)`: left-pad with `0` to width `w`, keeping a leading
sign character in front of the padding. -/
def pyZfill (w : Nat) (s : String) : String :=
  if s.data.length ≥ w then s
  else
    match s.data with
    | c :: rest =>
      if c = '+' ∨ c = '-' then ⟨c :: (List.replicate (w - s.data.length) '0' ++ rest)⟩
      else ⟨List.replicate (w - s.data.length) '0' ++ s.data⟩
    | [] => ⟨List.replicate w '0'⟩

/-! ## Data model (`parser.py`) -/

/-- `parser.Author` dataclass. Dataclass equality is field-by-field value
equality, which the derived `DecidableEq` mirrors. -/
structure Author where
  first_name : String
  last_name : String
  affiliation : String
  email : Option String := none
deriving DecidableEq, Repr

/-- `Author.full_name`: `f"{first_name} {last_name}".strip()`. -/
def Author.full_name (a : Author) : String :=
  pyStrip (a.first_name ++ " " ++ a.last_name)

/-- `parser.Paper` dataclass (before classification). -/
structure Paper where
  pmid : String
  title : String
  publication_date : String
  authors : List Author
  corresponding_author_email : Option String := none
deriving DecidableEq, Repr

/-! ## Affiliation classifier (`filter.py`, class `CompanyFilter`) -/

/-- `CompanyFilter.pharma_keywords` (a Python set literal; order is
irrelevant to the any-match loop). -/
def pharma_keywords : List String :=
  ["pfizer", "novartis", "roche", "merck", "johnson & johnson", "j&j",
   "bristol myers squibb", "bms", "abbvie", "amgen", "gilead",
   "biogen", "regeneron", "vertex", "moderna", "biontech",
   "gsk", "glaxosmithkline", "sanofi", "takeda", "astrazeneca",
   "eli lilly", "lilly", "boehringer ingelheim", "celgene",
   "alexion", "incyte", "illumina", "genentech", "immunogen",
   "seagen", "seattle genetics", "gilead sciences", "biogen idec",
   "pharmaceuticals", "pharma", "biotech", "biotechnology",
   "therapeutic", "therapeutics", "drug development", "clinical research",
   "inc.", "corp.", "corporation", "ltd.", "limited", "company", "co."]

/-- `CompanyFilter.corporate_domains`. -/
def corporate_domains : List String :=
  ["pfizer.com", "novartis.com", "roche.com", "merck.com",
   "jnj.com", "bms.com", "abbvie.com", "amgen.com",
   "gilead.com", "biogen.com", "regeneron.com", "vrtx.com",
   "modernatx.com", "biontech.de", "gsk.com", "sanofi.com"]

/-- The local `academic_indicators` list of `is_academic_affiliation`. -/
def academic_indicators : List String :=
  [".edu", "university", "college", "school of", "medical school",
   "institute of", "department of", "faculty of", "academic"]

/-- The local `corporate_indicators` list of `is_company_affiliation`. -/
def corporate_indicators : List String :=
  ["inc.", "corp.", "ltd.", "limited", "llc", "gmbh"]

/-- The local `business_keywords` list of `is_company_affiliation`. -/
def business_keywords : List String :=
  ["pharmaceutical", "biotech", "therapeutic", "drug", "clinical"]

/-- `CompanyFilter.extract_domain_from_email`: if the email contains `@`,
return `email.split('@')[1].lower()`, else `None`. -/
def extract_domain_from_email (email : String) : Option String :=
  if strContainsSub email "@" then some (pyLower (pySplitSecond '@' email))
  else none

/-- `CompanyFilter.is_corporate_email`. -/
def is_corporate_email (email : String) : Bool :=
  match extract_domain_from_email email with
  | none => false
  | some domain =>
    if domain = "" then false
    else if corporate_domains.contains domain then true
    else if strEndsWith domain ".com"
            && !(["edu", "ac.", "univ"].any fun a => strContainsSub domain a) then true
    else false

/-- `CompanyFilter.is_academic_affiliation`. -/
def is_academic_affiliation (affiliation : String) : Bool :=
  academic_indicators.any fun ind => strContainsSub (pyLower affiliation) ind

/-- `CompanyFilter.is_company_affiliation`. -/
def is_company_affiliation (affiliation : String) : Bool :=
  if affiliation = "" then false
  else if is_academic_affiliation affiliation then false
  else if pharma_keywords.any (fun kw => strContainsSub (pyLower affiliation) kw) then true
  else if (corporate_indicators.any fun ind => strContainsSub (pyLower affiliation) ind)
          && (business_keywords.any fun kw => strContainsSub (pyLower affiliation) kw) then true
  else false

/-- The suffix list of `extract_company_name`, applied in order. -/
def company_suffixes : List String :=
  [" Inc", " Corp", " Ltd", " Limited", " LLC", " GmbH"]

/-- One pass of the suffix-cleanup loop of `extract_company_name`:
`if company_name.endswith(suffix): company_name = company_name[:-len(suffix)].strip()`. -/
def stripSuffixStep (name : String) (sfx : String) : String :=
  if strEndsWith name sfx then
    pyStrip ⟨name.data.take (name.data.length - sfx.data.length)⟩
  else name

/-- `CompanyFilter.extract_company_name`. -/
def extract_company_name (affiliation : String) : Option String :=
  if !is_company_affiliation affiliation then none
  else
    let n1 := pyStrip (pySplitHead ',' affiliation)
    let n2 := pyStrip (pySplitHead '.' n1)
    let n3 := company_suffixes.foldl stripSuffixStep n2
    if n3 = "" then none else some n3

/-- A paper annotated by the classifier with its two derived lists
(the Python code sets them as dynamic attributes on the `Paper` object). -/
structure ClassifiedPaper where
  paper : Paper
  company_authors : List Author
  company_affiliations : List String
deriving DecidableEq, Repr

/-- The body of the per-author loop of
`CompanyFilter.filter_papers_with_company_authors`, acting on the
accumulated `(company_authors, company_affiliations)` pair. Python list
membership (`in` / `not in`) tests dataclass value equality. -/
def authorStep (st : List Author × List String) (a : Author) : List Author × List String :=
  let st1 :=
    if is_company_affiliation a.affiliation then
      (st.1 ++ [a],
       match extract_company_name a.affiliation with
       | some n => if n ∈ st.2 then st.2 else st.2 ++ [n]
       | none => st.2)
    else st
  match a.email with
  | some e =>
    if e ≠ "" && is_corporate_email e then
      if a ∈ st1.1 then st1 else (st1.1 ++ [a], st1.2)
    else st1
  | none => st1

/-- The per-paper aggregation of `filter_papers_with_company_authors`. -/
def classifyAuthors (authors : List Author) : List Author × List String :=
  authors.foldl authorStep ([], [])

/-- `CompanyFilter.filter_papers_with_company_authors`. -/
def filter_papers_with_company_authors : List Paper → List ClassifiedPaper
  | [] => []
  | p :: rest =>
    let st := classifyAuthors p.authors
    if st.1.isEmpty then filter_papers_with_company_authors rest
    else ⟨p, st.1, st.2⟩ :: filter_papers_with_company_authors rest

/-! ## Date resolution (`parser.py`, `PubMedParser.parse_publication_date`) -/

/-- One date element of the XML record: the optional text of its `Year`,
`Month` and `Day` children (`none` when the child is absent; `some ""` when
present but empty, which `safe_find_text` also replaces by the default). -/
structure DateElem where
  year : Option String := none
  month : Option String := none
  day : Option String := none
deriving DecidableEq, Repr

/-- The four optional date locations of one article record, in the fixed
search order of `parse_publication_date`
(`ArticleDate`, `PubDate`, `DateCompleted`, `DateRevised`). -/
structure ArticleDates where
  articleDate : Option DateElem := none
  pubDate : Option DateElem := none
  dateCompleted : Option DateElem := none
  dateRevised : Option DateElem := none
deriving DecidableEq, Repr

/-- `PubMedParser.safe_find_text`: the element text when present and
non-empty, else the default. -/
def safe_find_text (t : Option String) (default : String) : String :=
  match t with
  | some s => if s = "" then default else s
  | none => default

/-- The `month_map` literal of `parse_publication_date`. -/
def month_map : List (String × String) :=
  [("Jan", "01"), ("Feb", "02"), ("Mar", "03"), ("Apr", "04"),
   ("May", "05"), ("Jun", "06"), ("Jul", "07"), ("Aug", "08"),
   ("Sep", "09"), ("Oct", "10"), ("Nov", "11"), ("Dec", "12")]

/-- Numeric value of a digit string (only used under an all-digit guard). -/
def natOfDigits (s : List Char) : Nat :=
  s.foldl (fun n c => n * 10 + (c.toNat - 48)) 0

/-- Day count of a month in the proleptic Gregorian calendar used by
Python `datetime`. -/
def daysInMonth (y m : Nat) : Nat :=
  if m = 2 then (if y % 4 = 0 && (y % 100 ≠ 0 || y % 400 = 0) then 29 else 28)
  else if m = 4 ∨ m = 6 ∨ m = 9 ∨ m = 11 then 30
  else 31

/-- Success of `datetime.strptime(f"{y}-{m}-{d}", "%Y-%m-%d")`: `%Y` consumes
exactly four digits (and `datetime` requires year ≥ 1), `%m` one or two
digits valued 1..12, `%d` one or two digits naming a real day of that month,
with no stray characters anywhere. -/
def validYMD (ys ms ds : String) : Bool :=
  let yl := ys.data
  let ml := ms.data
  let dl := ds.data
  yl.length = 4 && yl.all Char.isDigit && 1 ≤ natOfDigits yl
  && (ml.length = 1 || ml.length = 2) && ml.all Char.isDigit
  && 1 ≤ natOfDigits ml && natOfDigits ml ≤ 12
  && (dl.length = 1 || dl.length = 2) && dl.all Char.isDigit
  && 1 ≤ natOfDigits dl && natOfDigits dl ≤ daysInMonth (natOfDigits yl) (natOfDigits ml)

/-- The loop body of `parse_publication_date` for one present date element:
read the sub-fields with defaults `1900`/`01`/`01`, map a three-letter month
name through `month_map`, zero-pad month and day, and return the assembled
`YYYY-MM-DD` when it validates, else `none` (the `except ValueError:
continue`). -/
def tryFormatDate (e : DateElem) : Option String :=
  let year := safe_find_text e.year "1900"
  let month0 := safe_find_text e.month "01"
  let day0 := safe_find_text e.day "01"
  let month1 := match month_map.lookup month0 with
    | some m => m
    | none => month0
  let month := pyZfill 2 month1
  let day := pyZfill 2 day0
  if validYMD year month day then some (year ++ "-" ++ month ++ "-" ++ day)
  else none

/-- The candidate loop of `parse_publication_date`: skip absent locations,
return the first successfully validated date, else fall through. -/
def firstValidDate : List (Option DateElem) → String
  | [] => "1900-01-01"
  | none :: rest => firstValidDate rest
  | some e :: rest =>
    match tryFormatDate e with
    | some s => s
    | none => firstValidDate rest

/-- `PubMedParser.parse_publication_date`. -/
def parse_publication_date (a : ArticleDates) : String :=
  firstValidDate [a.articleDate, a.pubDate, a.dateCompleted, a.dateRevised]

/-! ## Exporter (`exporter.py`, class `CSVExporter`) -/

/-- `CSVExporter.HEADERS`. -/
def HEADERS : List String :=
  ["PubmedID", "Title", "Publication Date", "Non-academic Author(s)",
   "Company Affiliation(s)", "Corresponding Author Email"]

/-- A paper as the exporter sees it: the base record plus the two attributes
the classifier may or may not have set dynamically (`getattr` with default
`[]` reads them back). -/
structure ExportPaper where
  paper : Paper
  company_authors : Option (List Author) := none
  company_affiliations : Option (List String) := none
deriving DecidableEq, Repr

/-- `CSVExporter.format_authors_list`. -/
def format_authors_list (authors : List Author) : String :=
  if authors.isEmpty then ""
  else String.intercalate "; " (authors.map Author.full_name)

/-- `CSVExporter.format_affiliations_list`. -/
def format_affiliations_list (affiliations : List String) : String :=
  if affiliations.isEmpty then ""
  else String.intercalate "; " affiliations

/-- The row built for one paper inside `CSVExporter.export_papers`
(`getattr(paper, 'company_authors', [])` etc., `email or ""`). -/
def paperRow (p : ExportPaper) : List String :=
  [p.paper.pmid, p.paper.title, p.paper.publication_date,
   format_authors_list (p.company_authors.getD []),
   format_affiliations_list (p.company_affiliations.getD []),
   p.paper.corresponding_author_email.getD ""]

/-- `CSVExporter.export_papers`, as the sequence of rows written: `none`
models the early return that writes nothing when the paper list is empty;
otherwise the header row followed by one row per paper in order. -/
def export_papers (papers : List ExportPaper) : Option (List (List String)) :=
  if papers.isEmpty then none
  else some (HEADERS :: papers.map paperRow)

/-! ## Gateway (`api_client.py`, `PubMedAPIClient.fetch_paper_details`) -/

/-- The outbound request `fetch_paper_details` hands to `_make_request`
(transport itself is an external collaborator). -/
structure EUtilsRequest where
  endpoint : String
  params : List (String × String)
deriving DecidableEq, Repr

/-- Errors surfaced by `fetch_paper_details` before any request is issued. -/
inductive FetchError where
  | invalidArgument (msg : String)
deriving DecidableEq, Repr

/-- `PubMedAPIClient.fetch_paper_details`, up to the point the single batched
request is issued: `ValueError` on an empty id list (raised before any
outbound call), else the `efetch.fcgi` request with the ids comma-joined
into the single `id` parameter. -/
def fetch_paper_details (pmids : List String) : Except FetchError EUtilsRequest :=
  if pmids.isEmpty then .error (.invalidArgument "No PMIDs provided")
  else .ok ⟨"efetch.fcgi",
    [("db", "pubmed"),
     ("id", String.intercalate "," pmids),
     ("retmode", "xml"),
     ("rettype", "abstract")]⟩

/-! ## Helper lemmas -/

lemma format_authors_list_eq (authors : List Author) :
    format_authors_list authors = String.intercalate "; " (authors.map Author.full_name) := by
  cases authors <;> rfl

lemma format_affiliations_list_eq (affiliations : List String) :
    format_affiliations_list affiliations = String.intercalate "; " affiliations := by
  cases affiliations <;> rfl

lemma firstValidDate_eq (l : List (Option DateElem)) :
    firstValidDate l = (l.filterMap fun o => o.bind tryFormatDate).headD "1900-01-01" := by
  induction l with
  | nil => rfl
  | cons o rest ih =>
    cases o with
    | none => simpa [firstValidDate, List.filterMap_cons] using ih
    | some e =>
      cases h : tryFormatDate e with
      | none => simp [firstValidDate, List.filterMap_cons, h, ih]
      | some s => simp [firstValidDate, List.filterMap_cons, h]

/-! ## Claim C3 -/

/-- C3: academic indicators take precedence and short-circuit: any non-empty
affiliation whose lower-cased text contains one of the nine fixed academic
indicators is classified non-company by `is_company_affiliation`, whatever
else it contains; and the empty affiliation is classified non-company. -/
theorem claim_C3 :
    (∀ aff : String, aff ≠ "" →
      (academic_indicators.any fun ind => strContainsSub (pyLower aff) ind) = true →
      is_company_affiliation aff = false)
    ∧ is_company_affiliation "" = false := by
  constructor
  · intro aff _ h
    simp [is_company_affiliation, is_academic_affiliation, h]
  · decide

/-- Witness for C3 at the affiliation "Pfizer University": it contains both a
pharma keyword and an academic indicator, and is classified non-company. -/
theorem claim_C3_witness :
    ("Pfizer University" ≠ "")
    ∧ (academic_indicators.any fun ind => strContainsSub (pyLower "Pfizer University") ind) = true
    ∧ is_company_affiliation "Pfizer University" = false :=
  ⟨by decide, by decide, claim_C3.1 "Pfizer University" (by decide) (by decide)⟩

/-! ## Claim C4 -/

/-- C4: date resolution. The parser inspects the four date locations in fixed
order and returns the first assembled date that validates, defaulting to
`1900-01-01`; sub-field defaults are `1900`/`01`/`01`, three-letter month
names are mapped numerically, month and day are zero-padded, and an invalid
assembled date falls through to the next candidate. In particular
year=2023, month="05", day="15" in the first candidate yields `2023-05-15`. -/
theorem claim_C4 :
    parse_publication_date ⟨some ⟨some "2023", some "05", some "15"⟩, none, none, none⟩ = "2023-05-15"
    ∧ parse_publication_date ⟨none, none, none, none⟩ = "1900-01-01"
    ∧ (∀ a : ArticleDates, parse_publication_date a =
        (([a.articleDate, a.pubDate, a.dateCompleted, a.dateRevised].filterMap
            fun o => o.bind tryFormatDate).headD "1900-01-01"))
    ∧ tryFormatDate ⟨some "2024", none, none⟩ = some "2024-01-01"
    ∧ tryFormatDate ⟨none, some "May", some "7"⟩ = some "1900-05-07"
    ∧ parse_publication_date
        ⟨some ⟨some "2023", some "13", some "1"⟩, some ⟨some "2022", some "Feb", some "3"⟩,
         none, none⟩ = "2022-02-03" := by
  refine ⟨by decide, by decide, ?_, by decide, by decide, by decide⟩
  intro a
  exact firstValidDate_eq _

/-! ## Claim C9 -/

/-- C9: `fetch_paper_details` fails with the invalid-argument error on an
empty id list — and an error is produced exactly then, so no outbound request
is built — while any non-empty id list yields the single batched `efetch`
request whose `id` parameter joins all identifiers with commas. -/
theorem claim_C9 :
    fetch_paper_details [] = .error (.invalidArgument "No PMIDs provided")
    ∧ (∀ pmids : List String, pmids ≠ [] →
        fetch_paper_details pmids =
          .ok ⟨"efetch.fcgi",
            [("db", "pubmed"), ("id", String.intercalate "," pmids),
             ("retmode", "xml"), ("rettype", "abstract")]⟩)
    ∧ (∀ pmids : List String,
        (∃ err, fetch_paper_details pmids = .error err) ↔ pmids = []) := by
  refine ⟨rfl, ?_, ?_⟩
  · intro pmids h
    cases pmids with
    | nil => exact absurd rfl h
    | cons p rest => rfl
  · intro pmids
    cases pmids with
    | nil => simp [fetch_paper_details]
    | cons p rest => simp [fetch_paper_details]

/-- Witness for C9 at the id list `["1", "2"]`. -/
theorem claim_C9_witness :
    (["1", "2"] ≠ ([] : List String))
    ∧ fetch_paper_details ["1", "2"] =
        .ok ⟨"efetch.fcgi",
          [("db", "pubmed"), ("id", String.intercalate "," ["1", "2"]),
           ("retmode", "xml"), ("rettype", "abstract")]⟩ :=
  ⟨by decide, claim_C9.2.1 ["1", "2"] (by decide)⟩

/-! ## Claim C10 -/

/-- C10: the exporter succeeds on papers that were never classified: a paper
carrying neither derived attribute gets a row with empty strings in the
"Non-academic Author(s)" and "Company Affiliation(s)" columns and the other
four columns filled as usual, and the export including it still writes the
header plus one row per paper. -/
theorem claim_C10 :
    ∀ p : ExportPaper, p.company_authors = none → p.company_affiliations = none →
      (paperRow p = [p.paper.pmid, p.paper.title, p.paper.publication_date, "", "",
        p.paper.corresponding_author_email.getD ""])
      ∧ (∀ papers : List ExportPaper, p ∈ papers →
          export_papers papers = some (HEADERS :: papers.map paperRow)) := by
  intro p h1 h2
  constructor
  · simp [paperRow, h1, h2, format_authors_list, format_affiliations_list]
  · intro papers hp
    cases papers with
    | nil => exact absurd hp (List.not_mem_nil p)
    | cons q rest => rfl

/-- Witness for C10 at a concrete unclassified paper. -/
theorem claim_C10_witness :
    paperRow ⟨⟨"1", "T", "2023-01-01", [], none⟩, none, none⟩ = ["1", "T", "2023-01-01", "", "", ""]
    ∧ export_papers [⟨⟨"1", "T", "2023-01-01", [], none⟩, none, none⟩] =
        some (HEADERS :: [⟨⟨"1", "T", "2023-01-01", [], none⟩, none, none⟩].map paperRow) :=
  ⟨(claim_C10 ⟨⟨"1", "T", "2023-01-01", [], none⟩, none, none⟩ rfl rfl).1,
   (claim_C10 ⟨⟨"1", "T", "2023-01-01", [], none⟩, none, none⟩ rfl rfl).2
     [⟨⟨"1", "T", "2023-01-01", [], none⟩, none, none⟩] (List.mem_singleton.mpr rfl)⟩

/-! ## Claim C8 -/

/-- C8: for an empty paper list the exporter writes nothing at all; for any
non-empty list it writes the fixed six-column header row first and then
exactly one row per paper in input order, with the company-author names and
the company-affiliation list each joined by `"; "` and a missing
corresponding-author email rendered as the empty string. -/
theorem claim_C8 :
    export_papers [] = none
    ∧ (∀ papers : List ExportPaper, papers ≠ [] →
        export_papers papers = some (HEADERS ::
          papers.map fun p =>
            [p.paper.pmid, p.paper.title, p.paper.publication_date,
             String.intercalate "; " ((p.company_authors.getD []).map Author.full_name),
             String.intercalate "; " (p.company_affiliations.getD []),
             p.paper.corresponding_author_email.getD ""])) := by
  constructor
  · rfl
  · intro papers h
    cases papers with
    | nil => exact absurd rfl h
    | cons q rest =>
      have hrow : paperRow = fun p : ExportPaper =>
          [p.paper.pmid, p.paper.title, p.paper.publication_date,
           String.intercalate "; " ((p.company_authors.getD []).map Author.full_name),
           String.intercalate "; " (p.company_affiliations.getD []),
           p.paper.corresponding_author_email.getD ""] := by
        funext p
        simp [paperRow, format_authors_list_eq, format_affiliations_list_eq]
      simp [export_papers, hrow]

/-- Witness for C8 at a concrete one-paper list. -/
theorem claim_C8_witness :
    ([(⟨⟨"7", "T7", "2024-02-03", [], none⟩, some [⟨"John", "Doe", "Pfizer Inc., NY", none⟩],
        some ["Pfizer"]⟩ : ExportPaper)] ≠ [])
    ∧ export_papers
        [⟨⟨"7", "T7", "2024-02-03", [], none⟩, some [⟨"John", "Doe", "Pfizer Inc., NY", none⟩],
          some ["Pfizer"]⟩] =
        some (HEADERS ::
          [(⟨⟨"7", "T7", "2024-02-03", [], none⟩, some [⟨"John", "Doe", "Pfizer Inc., NY", none⟩],
            some ["Pfizer"]⟩ : ExportPaper)].map fun p =>
            [p.paper.pmid, p.paper.title, p.paper.publication_date,
             String.intercalate "; " ((p.company_authors.getD []).map Author.full_name),
             String.intercalate "; " (p.company_affiliations.getD []),
             p.paper.corresponding_author_email.getD ""]) :=
  ⟨by decide,
   claim_C8.2
     [⟨⟨"7", "T7", "2024-02-03", [], none⟩, some [⟨"John", "Doe", "Pfizer Inc., NY", none⟩],
       some ["Pfizer"]⟩] (by decide)⟩

/-! ## Claim C2 -/

/-- Counterexample to C2 as stated: the affiliation
"Acme Software Inc., Seattle" carries the legal-entity marker "inc.", names
no pharma company and contains no pharma/biotech business-domain keyword and
no academic indicator, yet `is_company_affiliation` returns true, because
"inc." is itself a member of the pharma keyword set. -/
theorem claim_C2_counterexample :
    is_company_affiliation "Acme Software Inc., Seattle" = true
    ∧ (business_keywords.any fun kw =>
        strContainsSub (pyLower "Acme Software Inc., Seattle") kw) = false
    ∧ (academic_indicators.any fun ind =>
        strContainsSub (pyLower "Acme Software Inc., Seattle") ind) = false := by
  refine ⟨by decide, by decide, by decide⟩

/-- C2 amended: the legal-entity markers "inc.", "corp.", "ltd.", "limited",
"company", "co." belong to the pharma keyword set themselves, so an
affiliation containing one is classified as a company with no co-occurring
domain keyword required (e.g. "Acme Software Inc., Seattle" is classified
true). Only for markers outside the keyword set ("llc", "gmbh") does the
claimed rule hold: when no pharma keyword and no business-domain keyword
occurs in the affiliation, `is_company_affiliation` returns false — e.g.
false on "Acme Software LLC, Seattle". -/
theorem claim_C2_amended :
    (∀ aff : String,
      (pharma_keywords.all fun kw => !strContainsSub (pyLower aff) kw) = true →
      (business_keywords.all fun kw => !strContainsSub (pyLower aff) kw) = true →
      is_company_affiliation aff = false)
    ∧ is_company_affiliation "Acme Software LLC, Seattle" = false := by
  constructor
  · intro aff h1 h2
    have ha : (pharma_keywords.any fun kw => strContainsSub (pyLower aff) kw) = false := by
      simp only [List.all_eq_true, Bool.not_eq_true'] at h1
      simp only [List.any_eq_false]
      intro kw hkw
      simp [h1 kw hkw]
    have hb : (business_keywords.any fun kw => strContainsSub (pyLower aff) kw) = false := by
      simp only [List.all_eq_true, Bool.not_eq_true'] at h2
      simp only [List.any_eq_false]
      intro kw hkw
      simp [h2 kw hkw]
    simp [is_company_affiliation, ha, hb]
  · decide

/-- Witness for C2 (amended) at "Acme Software LLC, Seattle". -/
theorem claim_C2_witness :
    (pharma_keywords.all fun kw =>
      !strContainsSub (pyLower "Acme Software LLC, Seattle") kw) = true
    ∧ (business_keywords.all fun kw =>
        !strContainsSub (pyLower "Acme Software LLC, Seattle") kw) = true
    ∧ is_company_affiliation "Acme Software LLC, Seattle" = false :=
  ⟨by decide, by decide, claim_C2_amended.1 "Acme Software LLC, Seattle" (by decide) (by decide)⟩

/-! ## Split lemmas for the claims about domain and name extraction -/

lemma pySplitList_ne_nil (c : Char) (s : List Char) : pySplitList c s ≠ [] := by
  cases s with
  | nil => simp [pySplitList]
  | cons x t =>
    simp only [pySplitList]
    cases h : pySplitList c t with
    | nil => simp
    | cons s0 rest => by_cases hx : x = c <;> simp [hx]

lemma pySplit_head (c : Char) (s : List Char) :
    (pySplitList c s).headD [] = s.takeWhile (· ≠ c) := by
  induction s with
  | nil => rfl
  | cons x t ih =>
    simp only [pySplitList]
    cases h : pySplitList c t with
    | nil => exact absurd h (pySplitList_ne_nil c t)
    | cons s0 rest =>
      rw [h] at ih
      simp only [List.headD_cons] at ih
      by_cases hx : x = c
      · simp [hx]
      · simp only [hx, if_false, List.headD_cons, List.takeWhile_cons]
        simp [hx]
        simpa using ih

lemma pySplit_second (c : Char) (s : List Char) :
    ((pySplitList c s).drop 1).headD [] = ((s.dropWhile (· ≠ c)).drop 1).takeWhile (· ≠ c) := by
  induction s with
  | nil => rfl
  | cons x t ih =>
    simp only [pySplitList]
    cases h : pySplitList c t with
    | nil => exact absurd h (pySplitList_ne_nil c t)
    | cons s0 rest =>
      by_cases hx : x = c
      · have hh := pySplit_head c t
        rw [h] at hh
        simp only [List.headD_cons] at hh
        simp only [hx, if_true, List.drop_succ_cons, List.drop_zero, List.headD_cons]
        simp at hh ⊢
        simpa using hh
      · rw [h] at ih
        simp at ih ⊢
        simp only [List.head?_eq_getElem?] at ih
        simpa [hx] using ih

/-! ## Claim C7 -/

/-- Modelled from the claim's wording for comparison: the domain as "the
lower-cased text after the '@'" — everything that follows the first `@`. -/
def claimEmailDomain (email : String) : Option String :=
  if strContainsSub email "@" then
    some (pyLower ⟨(email.data.dropWhile (· ≠ '@')).drop 1⟩)
  else none

/-- The corporate-email predicate exactly as the claim describes it, over
`claimEmailDomain`. -/
def claim_is_corporate_email (email : String) : Bool :=
  match claimEmailDomain email with
  | none => false
  | some d =>
    corporate_domains.contains d
      || (strEndsWith d ".com" && !(["edu", "ac.", "univ"].any fun a => strContainsSub d a))

/-- Counterexample to C7 as stated: on "a@pfizer.com@b" the code takes the
domain `pfizer.com` (Python `split('@')[1]` stops at the second `@`), which
is in the allow-list, and returns true; the text after the `@` is
`pfizer.com@b`, which is not in the allow-list and does not end in `.com`,
so the claimed description returns false. -/
theorem claim_C7_counterexample :
    is_corporate_email "a@pfizer.com@b" = true
    ∧ claim_is_corporate_email "a@pfizer.com@b" = false := by
  refine ⟨by decide, by decide⟩

/-- The domain the code actually uses, in spec terms: the text strictly
between the first `@` and the following `@` (or the end of the string),
lower-cased; none when there is no `@`. -/
def specDomainSplit (email : String) : Option String :=
  if strContainsSub email "@" then
    some (pyLower ⟨((email.data.dropWhile (· ≠ '@')).drop 1).takeWhile (· ≠ '@')⟩)
  else none

/-- C7 amended: `is_corporate_email` returns false for every input without
an `@`; otherwise, with the domain taken as the lower-cased text between the
first `@` and the next `@` (Python `split('@')[1]`), it returns true exactly
when the domain is in the fixed allow-list, or ends in `.com` while
containing none of "edu", "ac.", "univ"; the claim's three examples hold. -/
theorem claim_C7_amended :
    (∀ email : String, is_corporate_email email =
      match specDomainSplit email with
      | none => false
      | some d =>
        corporate_domains.contains d
          || (strEndsWith d ".com" && !(["edu", "ac.", "univ"].any fun a => strContainsSub d a)))
    ∧ is_corporate_email "john.doe@pfizer.com" = true
    ∧ is_corporate_email "student@university.edu" = false
    ∧ is_corporate_email "invalid-email" = false := by
  refine ⟨?_, by decide, by decide, by decide⟩
  intro email
  cases hc : strContainsSub email "@"
  · simp [is_corporate_email, extract_domain_from_email, specDomainSplit, hc]
  · have hdom : pySplitSecond '@' email =
        ⟨((email.data.dropWhile (· ≠ '@')).drop 1).takeWhile (· ≠ '@')⟩ := by
      unfold pySplitSecond
      rw [pySplit_second]
    simp only [is_corporate_email, extract_domain_from_email, specDomainSplit, hc, if_true, hdom]
    by_cases hd :
        pyLower ⟨((email.data.dropWhile (· ≠ '@')).drop 1).takeWhile (· ≠ '@')⟩ = ""
    · rw [hd]
      decide
    · rw [if_neg hd]
      cases hcon : corporate_domains.contains
          (pyLower ⟨((email.data.dropWhile (· ≠ '@')).drop 1).takeWhile (· ≠ '@')⟩)
      · cases hY : strEndsWith
            (pyLower ⟨((email.data.dropWhile (· ≠ '@')).drop 1).takeWhile (· ≠ '@')⟩) ".com"
            && !(["edu", "ac.", "univ"].any fun a => strContainsSub
                  (pyLower ⟨((email.data.dropWhile (· ≠ '@')).drop 1).takeWhile (· ≠ '@')⟩) a)
          <;> simp [hcon, hY]
      · simp [hcon]

/-! ## Claim C6 -/

/-- The name-extraction pipeline in the spec's words: the substring before
the first comma, then before the first period within that, trimmed, with
the trailing legal-entity suffixes stripped in the fixed order. -/
def specCleanCompanyName (affiliation : String) : String :=
  let n1 := pyStrip ⟨affiliation.data.takeWhile (· ≠ ',')⟩
  let n2 := pyStrip ⟨n1.data.takeWhile (· ≠ '.')⟩
  company_suffixes.foldl stripSuffixStep n2

/-- C6: `extract_company_name` returns none on every non-company
affiliation; on company affiliations it returns the before-first-comma,
before-first-period, trimmed, suffix-stripped name, or none when that is
empty; the two fixed examples yield "Pfizer" and none respectively. -/
theorem claim_C6 :
    (∀ aff : String, is_company_affiliation aff = false → extract_company_name aff = none)
    ∧ (∀ aff : String, is_company_affiliation aff = true →
        extract_company_name aff =
          (if specCleanCompanyName aff = "" then none else some (specCleanCompanyName aff)))
    ∧ extract_company_name "Pfizer Inc., Global R&D, New York, NY" = some "Pfizer"
    ∧ extract_company_name "University of California, San Francisco" = none := by
  refine ⟨?_, ?_, by decide, by decide⟩
  · intro aff h
    simp [extract_company_name, h]
  · intro aff h
    have h1 : pySplitHead ',' aff = ⟨aff.data.takeWhile (· ≠ ',')⟩ := by
      unfold pySplitHead
      rw [pySplit_head]
    have h2 : pySplitHead '.' (pyStrip ⟨aff.data.takeWhile (· ≠ ',')⟩) =
        ⟨(pyStrip ⟨aff.data.takeWhile (· ≠ ',')⟩).data.takeWhile (· ≠ '.')⟩ := by
      unfold pySplitHead
      rw [pySplit_head]
    simp only [extract_company_name, h, Bool.not_true, Bool.false_eq_true, if_false,
      specCleanCompanyName, h1, h2]

/-- Witness for C6: the two hypothesised parts applied at the claim's own
example affiliations. -/
theorem claim_C6_witness :
    is_company_affiliation "University of California, San Francisco" = false
    ∧ extract_company_name "University of California, San Francisco" = none
    ∧ is_company_affiliation "Pfizer Inc., Global R&D, New York, NY" = true
    ∧ extract_company_name "Pfizer Inc., Global R&D, New York, NY" =
        (if specCleanCompanyName "Pfizer Inc., Global R&D, New York, NY" = "" then none
         else some (specCleanCompanyName "Pfizer Inc., Global R&D, New York, NY")) :=
  ⟨by decide, claim_C6.1 "University of California, San Francisco" (by decide),
   by decide, claim_C6.2.1 "Pfizer Inc., Global R&D, New York, NY" (by decide)⟩

/-! ## Structure of one classifier loop iteration -/

lemma authorStep_fst_shape (st : List Author × List String) (x : Author) :
    (authorStep st x).1 = st.1 ∨ (authorStep st x).1 = st.1 ++ [x] := by
  cases hem : x.email with
  | none =>
    by_cases h1 : is_company_affiliation x.affiliation <;> simp [authorStep, hem, h1]
  | some e =>
    by_cases h1 : is_company_affiliation x.affiliation
    · by_cases h2 : ¬e = "" ∧ is_corporate_email e = true
      · simp [authorStep, hem, h1, h2]
      · simp [authorStep, hem, h1, h2]
    · by_cases h2 : ¬e = "" ∧ is_corporate_email e = true
      · by_cases h3 : x ∈ st.1
        · simp [authorStep, hem, h1, h2, h3]
        · simp [authorStep, hem, h1, h2, h3]
      · simp [authorStep, hem, h1, h2]

lemma count_authorStep (st : List Author × List String) (x a : Author)
    (haff : is_company_affiliation a.affiliation = false)
    (h : st.1.count a ≤ 1) : ((authorStep st x).1).count a ≤ 1 := by
  by_cases hxa : x = a
  · subst hxa
    cases hem : x.email with
    | none => simpa [authorStep, hem, haff] using h
    | some e =>
      by_cases h2 : ¬e = "" ∧ is_corporate_email e = true
      · by_cases h3 : x ∈ st.1
        · simpa [authorStep, hem, haff, h2, h3] using h
        · have hc : st.1.count x = 0 := List.count_eq_zero.mpr h3
          simp [authorStep, hem, haff, h2, h3, List.count_append, hc]
      · simpa [authorStep, hem, haff, h2] using h
  · have hbeq : (a == x) = false := beq_eq_false_iff_ne.mpr (Ne.symm hxa)
    have key : ∀ l : List Author, (l ++ [x]).count a = l.count a := by
      intro l
      rw [List.count_append]
      simp [List.count_cons, hbeq, hxa]
    rcases authorStep_fst_shape st x with hs | hs
    · rw [hs]; exact h
    · rw [hs, key]; exact h

lemma count_classify_le (authors : List Author) :
    ∀ st : List Author × List String, ∀ a : Author,
      is_company_affiliation a.affiliation = false → st.1.count a ≤ 1 →
      ((authors.foldl authorStep st).1).count a ≤ 1 := by
  induction authors with
  | nil => intro st a _ h; simpa using h
  | cons x t ih =>
    intro st a haff h
    rw [List.foldl_cons]
    exact ih (authorStep st x) a haff (count_authorStep st x a haff h)

/-! ## Claim C1 -/

/-- The duplicated author of the C1 counterexample: a non-company affiliation
and a corporate `.com` email, so they qualify only through the email branch. -/
def dupAuthor : Author :=
  ⟨"Jane", "Doe", "Acme Software, Seattle", some "jane@acmesoft.com"⟩

/-- A paper whose author list holds two parsed copies of `dupAuthor` with
identical field values. -/
def dupPaper : Paper :=
  ⟨"99001", "Duplicate Author Paper", "2023-01-01", [dupAuthor, dupAuthor], none⟩

/-- Counterexample to C1 as stated: both copies of `dupAuthor` qualify only
via `is_corporate_email` (the affiliation is not a company affiliation), yet
the filtered paper's company-author list contains ONE entry, not two —
Python's `author not in company_authors` on dataclasses compares by value,
so the second identical author is deduplicated away. -/
theorem claim_C1_counterexample :
    is_company_affiliation dupAuthor.affiliation = false
    ∧ dupAuthor.email.map is_corporate_email = some true
    ∧ ((filter_papers_with_company_authors [dupPaper]).map fun cp => cp.company_authors)
        = [[dupAuthor]]
    ∧ ((filter_papers_with_company_authors [dupPaper]).map fun cp => cp.company_authors)
        ≠ [[dupAuthor, dupAuthor]] :=
  ⟨by decide, by decide, by decide, by decide⟩

/-- C1 amended: the corporate-email branch deduplicates by author value, not
identity: for every author value whose affiliation is not a company
affiliation (so it can enter the company-author list only through the
corporate-email branch), the computed company-author list of any author
list contains that value at most once — two distinct parsed Author objects
with identical field values yield a single entry. -/
theorem claim_C1_amended :
    ∀ (authors : List Author) (a : Author),
      is_company_affiliation a.affiliation = false →
      ((classifyAuthors authors).1).count a ≤ 1 := by
  intro authors a haff
  exact count_classify_le authors ([], []) a haff (by simp)

/-- Witness for C1 (amended) at the duplicated-author paper. -/
theorem claim_C1_witness :
    is_company_affiliation dupAuthor.affiliation = false
    ∧ ((classifyAuthors [dupAuthor, dupAuthor]).1).count dupAuthor ≤ 1 :=
  ⟨by decide, claim_C1_amended [dupAuthor, dupAuthor] dupAuthor (by decide)⟩

/-! ## Claim C5 -/

lemma foldl_authorStep_sublist (authors : List Author) :
    ∀ st : List Author × List String, ∃ δ : List Author,
      ((authors.foldl authorStep st).1 = st.1 ++ δ) ∧ δ.Sublist authors := by
  induction authors with
  | nil => intro st; exact ⟨[], by simp, List.nil_sublist _⟩
  | cons x t ih =>
    intro st
    rw [List.foldl_cons]
    obtain ⟨δ, hδ, hsub⟩ := ih (authorStep st x)
    rcases authorStep_fst_shape st x with hs | hs
    · exact ⟨δ, by rw [hδ, hs], hsub.cons x⟩
    · refine ⟨x :: δ, ?_, hsub.cons₂ x⟩
      rw [hδ, hs, List.append_assoc]
      rfl

lemma classify_sublist (authors : List Author) :
    ((classifyAuthors authors).1).Sublist authors := by
  obtain ⟨δ, h1, h2⟩ := foldl_authorStep_sublist authors ([], [])
  unfold classifyAuthors
  rw [h1]
  simpa using h2

/-- C5: the classifier returns exactly the input papers whose computed
company-author list is non-empty, in input order, each annotated with its
two derived lists; every returned paper has at least one company author, and
its company-author list is a subsequence of that paper's author list. -/
theorem claim_C5 :
    (∀ papers : List Paper,
      filter_papers_with_company_authors papers =
        (papers.filter fun p => !(classifyAuthors p.authors).1.isEmpty).map
          fun p => ⟨p, (classifyAuthors p.authors).1, (classifyAuthors p.authors).2⟩)
    ∧ (∀ (papers : List Paper) (cp : ClassifiedPaper),
        cp ∈ filter_papers_with_company_authors papers → 1 ≤ cp.company_authors.length)
    ∧ (∀ (papers : List Paper) (cp : ClassifiedPaper),
        cp ∈ filter_papers_with_company_authors papers →
          cp.company_authors.Sublist cp.paper.authors) := by
  refine ⟨?_, ?_, ?_⟩
  · intro papers
    induction papers with
    | nil => rfl
    | cons p t ih =>
      cases h : (classifyAuthors p.authors).1.isEmpty with
      | true => simp [filter_papers_with_company_authors, List.filter_cons, h, ih]
      | false => simp [filter_papers_with_company_authors, List.filter_cons, h, ih]
  · intro papers cp
    induction papers with
    | nil => intro hm; simp [filter_papers_with_company_authors] at hm
    | cons p t ih =>
      intro hm
      cases h : (classifyAuthors p.authors).1.isEmpty with
      | true =>
        rw [show filter_papers_with_company_authors (p :: t)
              = filter_papers_with_company_authors t by
            simp [filter_papers_with_company_authors, h]] at hm
        exact ih hm
      | false =>
        rw [show filter_papers_with_company_authors (p :: t)
              = ⟨p, (classifyAuthors p.authors).1, (classifyAuthors p.authors).2⟩ ::
                  filter_papers_with_company_authors t by
            simp [filter_papers_with_company_authors, h]] at hm
        rcases List.mem_cons.mp hm with rfl | hm2
        · cases hl : (classifyAuthors p.authors).1 with
          | nil => rw [hl] at h; simp at h
          | cons a rest => simp [hl]
        · exact ih hm2
  · intro papers cp
    induction papers with
    | nil => intro hm; simp [filter_papers_with_company_authors] at hm
    | cons p t ih =>
      intro hm
      cases h : (classifyAuthors p.authors).1.isEmpty with
      | true =>
        rw [show filter_papers_with_company_authors (p :: t)
              = filter_papers_with_company_authors t by
            simp [filter_papers_with_company_authors, h]] at hm
        exact ih hm
      | false =>
        rw [show filter_papers_with_company_authors (p :: t)
              = ⟨p, (classifyAuthors p.authors).1, (classifyAuthors p.authors).2⟩ ::
                  filter_papers_with_company_authors t by
            simp [filter_papers_with_company_authors, h]] at hm
        rcases List.mem_cons.mp hm with rfl | hm2
        · exact classify_sublist p.authors
        · exact ih hm2

/-- Witness for C5 at the test paper with one company-affiliated and one
academic author: membership with the length and subsequence conclusions. -/
theorem claim_C5_witness :
    ((⟨⟨"12345", "Test Paper 1", "2023-01-01",
        [⟨"John", "Doe", "Pfizer Inc., NY", some "john@pfizer.com"⟩,
         ⟨"Jane", "Smith", "University of California", some "jane@ucsf.edu"⟩], none⟩,
       [⟨"John", "Doe", "Pfizer Inc., NY", some "john@pfizer.com"⟩],
       ["Pfizer"]⟩ : ClassifiedPaper)
      ∈ filter_papers_with_company_authors
          [⟨"12345", "Test Paper 1", "2023-01-01",
            [⟨"John", "Doe", "Pfizer Inc., NY", some "john@pfizer.com"⟩,
             ⟨"Jane", "Smith", "University of California", some "jane@ucsf.edu"⟩], none⟩])
    ∧ 1 ≤ (ClassifiedPaper.mk
        ⟨"12345", "Test Paper 1", "2023-01-01",
          [⟨"John", "Doe", "Pfizer Inc., NY", some "john@pfizer.com"⟩,
           ⟨"Jane", "Smith", "University of California", some "jane@ucsf.edu"⟩], none⟩
        [⟨"John", "Doe", "Pfizer Inc., NY", some "john@pfizer.com"⟩]
        ["Pfizer"]).company_authors.length
    ∧ (ClassifiedPaper.mk
        ⟨"12345", "Test Paper 1", "2023-01-01",
          [⟨"John", "Doe", "Pfizer Inc., NY", some "john@pfizer.com"⟩,
           ⟨"Jane", "Smith", "University of California", some "jane@ucsf.edu"⟩], none⟩
        [⟨"John", "Doe", "Pfizer Inc., NY", some "john@pfizer.com"⟩]
        ["Pfizer"]).company_authors.Sublist
      (ClassifiedPaper.mk
        ⟨"12345", "Test Paper 1", "2023-01-01",
          [⟨"John", "Doe", "Pfizer Inc., NY", some "john@pfizer.com"⟩,
           ⟨"Jane", "Smith", "University of California", some "jane@ucsf.edu"⟩], none⟩
        [⟨"John", "Doe", "Pfizer Inc., NY", some "john@pfizer.com"⟩]
        ["Pfizer"]).paper.authors :=
  ⟨by decide,
   claim_C5.2.1
     [⟨"12345", "Test Paper 1", "2023-01-01",
       [⟨"John", "Doe", "Pfizer Inc., NY", some "john@pfizer.com"⟩,
        ⟨"Jane", "Smith", "University of California", some "jane@ucsf.edu"⟩], none⟩]
     (ClassifiedPaper.mk
       ⟨"12345", "Test Paper 1", "2023-01-01",
         [⟨"John", "Doe", "Pfizer Inc., NY", some "john@pfizer.com"⟩,
          ⟨"Jane", "Smith", "University of California", some "jane@ucsf.edu"⟩], none⟩
       [⟨"John", "Doe", "Pfizer Inc., NY", some "john@pfizer.com"⟩]
       ["Pfizer"]) (by decide),
   claim_C5.2.2
     [⟨"12345", "Test Paper 1", "2023-01-01",
       [⟨"John", "Doe", "Pfizer Inc., NY", some "john@pfizer.com"⟩,
        ⟨"Jane", "Smith", "University of California", some "jane@ucsf.edu"⟩], none⟩]
     (ClassifiedPaper.mk
       ⟨"12345", "Test Paper 1", "2023-01-01",
         [⟨"John", "Doe", "Pfizer Inc., NY", some "john@pfizer.com"⟩,
          ⟨"Jane", "Smith", "University of California", some "jane@ucsf.edu"⟩], none⟩
       [⟨"John", "Doe", "Pfizer Inc., NY", some "john@pfizer.com"⟩]
       ["Pfizer"]) (by decide)⟩
